import Mathlib

/-!
Shallow embedding of the PageRank estimator in src/pagerank.py.

Python dicts are modelled as association lists (insertion order preserved,
keys unique in every dict the program builds), Python floats as exact
rationals, and raised Python exceptions as values of an error type carried
in Except.
-/

/-- Page identifiers are strings (HTML file names). -/
abbrev Page := String

/-- The corpus: a dict mapping each page to the list of pages it links to
(a Python set, modelled as a duplicate-free list). -/
abbrev Corpus := List (Page × List Page)

/-- Python exceptions that the embedded code can raise. -/
inductive PyError where
  | keyError
  | typeError
  | indexError
deriving DecidableEq

/-- Python values that sample_pagerank can return: the integer 0 (the
initial value of finalRank) or a dict of floats. -/
inductive PyVal where
  | int (z : ℤ)
  | dict (m : List (Page × ℚ))
deriving DecidableEq

/-- Reading corpus[page]: Python raises KeyError when the key is absent. -/
def dictGet (corpus : Corpus) (k : Page) : Except PyError (List Page) :=
  match corpus with
  | [] => Except.error PyError.keyError
  | kv :: t => if kv.1 = k then Except.ok kv.2 else dictGet t k

/-- Reading a float-valued dict entry, as in rank[linkedPage]. Every such
read in iterate_pagerank hits an existing key (rank, newRank and corpus
share one key set), so the default 0 of the missing-key case is never
reached there. -/
def lookupQ (m : List (Page × ℚ)) (k : Page) : ℚ :=
  match m with
  | [] => 0
  | kv :: t => if kv.1 = k then kv.2 else lookupQ t k

/-- transition_model (src/pagerank.py lines 52-76): if corpus[page] is
nonempty, every corpus page gets (1-d)/n plus, for linked pages,
d/len(corpus[page]); otherwise every corpus page gets 1/n. -/
def transition_model (corpus : Corpus) (page : Page) (damping_factor : ℚ) :
    Except PyError (List (Page × ℚ)) := do
  let links ← dictGet corpus page
  let n : ℚ := corpus.length
  if links ≠ [] then
    Except.ok (corpus.map (fun kv =>
      (kv.1, (1 - damping_factor) / n +
        if kv.1 ∈ links then damping_factor / (links.length : ℚ) else 0)))
  else
    Except.ok (corpus.map (fun kv => (kv.1, 1 / n)))

/-- Model of random.choice: it takes one positional sequence argument and
accepts no keyword arguments, so CPython raises TypeError whenever a
keyword argument is supplied, and IndexError on an empty sequence. Both
call sites in sample_pagerank (lines 97 and 101) pass keyword arguments,
so only the TypeError branch is ever reached; the success branch returns
some element of the sequence (which one is irrelevant here). -/
def randomChoice (seq : List Page) (kwargs : List String) : Except PyError Page :=
  if kwargs ≠ [] then Except.error PyError.typeError
  else
    match seq with
    | [] => Except.error PyError.indexError
    | x :: _ => Except.ok x

/-- rank[temp] += 1 (line 103): KeyError when temp is not a key. -/
def dictIncr (m : List (Page × ℤ)) (k : Page) : Except PyError (List (Page × ℤ)) :=
  if k ∈ m.map Prod.fst then
    Except.ok (m.map (fun kv => if kv.1 = k then (kv.1, kv.2 + 1) else kv))
  else Except.error PyError.keyError

/-- One iteration of the sampling loop body (lines 96-101): with temp None
it evaluates random.choice(list(corpus.keys()), k=0), otherwise it builds
the transition model and evaluates random.choice(pop, weight=weight, k=1). -/
def sampleStep (corpus : Corpus) (damping_factor : ℚ) (temp : Option Page) :
    Except PyError Page :=
  match temp with
  | none => randomChoice (corpus.map Prod.fst) ["k"]
  | some t => do
      let model ← transition_model corpus t damping_factor
      randomChoice (model.map Prod.fst) ["weight", "k"]

/-- The for-loop over range(n) (lines 95-103), threading temp and rank. -/
def sampleLoop (corpus : Corpus) (damping_factor : ℚ) :
    Nat → Option Page → List (Page × ℤ) → Except PyError (List (Page × ℤ))
  | 0, _, rank => Except.ok rank
  | m + 1, temp, rank => do
      let t ← sampleStep corpus damping_factor temp
      let rank2 ← dictIncr rank t
      sampleLoop corpus damping_factor m (some t) rank2

/-- Evaluation of rank / n at line 108: dividing a dict by an int raises
TypeError in Python. -/
def dictDivInt (_ : List (Page × ℤ)) (_ : ℤ) : Except PyError PyVal :=
  Except.error PyError.typeError

/-- sample_pagerank (src/pagerank.py lines 78-110). rank starts at 0 for
every page; the loop over range(n) walks the chain; afterwards finalRank
starts as the integer 0 and the loop "for i in corpus: finalRank = rank/n"
evaluates rank / n (dict divided by int) once per corpus page, so the
function returns the integer 0 exactly when the corpus is empty. -/
def sample_pagerank (corpus : Corpus) (damping_factor : ℚ) (n : ℤ) :
    Except PyError PyVal := do
  let rank0 : List (Page × ℤ) := corpus.map (fun kv => (kv.1, 0))
  let rank ← sampleLoop corpus damping_factor n.toNat none rank0
  if corpus = [] then
    Except.ok (PyVal.int 0)
  else
    dictDivInt rank n

/-- The accumulator "number" for page i (lines 131-137): over every
linkedPage in the corpus, add rank[linkedPage]/len(corpus[linkedPage]) when
i is among its links, and add rank[linkedPage]/len(corpus) when it has no
links. -/
def iterNumber (corpus : Corpus) (rank : List (Page × ℚ)) (i : Page) : ℚ :=
  (corpus.map (fun kv =>
    (if i ∈ kv.2 then lookupQ rank kv.1 / (kv.2.length : ℚ) else 0) +
    (if kv.2 = [] then lookupQ rank kv.1 / (corpus.length : ℚ) else 0))).sum

/-- One full update pass (lines 130-139): newRank[i] =
(1-d)/len(corpus) + d * number, for every i among the keys of rank. -/
def updatePass (corpus : Corpus) (damping_factor : ℚ) (rank : List (Page × ℚ)) :
    List (Page × ℚ) :=
  rank.map (fun kv =>
    (kv.1, (1 - damping_factor) / (corpus.length : ℚ)
      + damping_factor * iterNumber corpus rank kv.1))

/-- Model of math.isclose with its default rel_tol of 1e-9 and the given
abs_tol, as used at line 144. -/
def isclose (a b abs_tol : ℚ) : Bool :=
  |a - b| ≤ max ((1 / 1000000000) * max |a| |b|) abs_tol

/-- iterate_pagerank (src/pagerank.py lines 112-149). rank starts uniform
at 1/len(corpus). In the source, the statement "condition = False"
(line 141) is the last statement inside the while body, and the
convergence-checking loop (lines 143-147) sits outside the while loop at
function level; the while loop therefore executes its body exactly once,
producing newRank from the initial rank, after which the final loop copies
newRank into rank (the condition flags it sets are never read again) and
rank is returned. -/
def iterate_pagerank (corpus : Corpus) (damping_factor : ℚ) : List (Page × ℚ) :=
  let rank := corpus.map (fun kv => (kv.1, 1 / (corpus.length : ℚ)))
  let newRank := updatePass corpus damping_factor rank
  rank.map (fun kv => (kv.1, lookupQ newRank kv.1))

/-- The uniform initial rank assignment (lines 124-125). -/
def initRank (corpus : Corpus) : List (Page × ℚ) :=
  corpus.map (fun kv => (kv.1, 1 / (corpus.length : ℚ)))

/-- Modelled from the spec (section 4.3, step 2): the simultaneous
two-snapshot update newRank[i] = (1-d)/N + d * (sum over pages j linking
to i of rank[j]/outdegree(j)) + d * (sum over dangling pages j of
rank[j]/N), reading only the prior snapshot rank. -/
def specNewRank (corpus : Corpus) (d : ℚ) (rank : Page → ℚ) (i : Page) : ℚ :=
  (1 - d) / (corpus.length : ℚ)
    + d * ((corpus.filter (fun kv => decide (i ∈ kv.2))).map
        (fun kv => rank kv.1 / (kv.2.length : ℚ))).sum
    + d * ((corpus.filter (fun kv => decide (kv.2 = []))).map
        (fun kv => rank kv.1 / (corpus.length : ℚ))).sum

/-! Helper lemmas about association-list dicts and list sums. -/

lemma lookupQ_map_key {β : Type} (l : List (Page × β)) (g : Page → ℚ) (k : Page)
    (h : k ∈ l.map Prod.fst) :
    lookupQ (l.map (fun kv => (kv.1, g kv.1))) k = g k := by
  induction l with
  | nil => simp at h
  | cons a t ih =>
      by_cases hk : a.1 = k
      · subst hk
        simp [lookupQ]
      · have h2 : k ∈ t.map Prod.fst := by
          rcases List.mem_map.mp h with ⟨x, hx, hx1⟩
          rcases List.mem_cons.mp hx with hx2 | hx2
          · exact absurd (hx2 ▸ hx1) hk
          · exact List.mem_map.mpr ⟨x, hx2, hx1⟩
        simp [lookupQ, hk, ih h2]

lemma dictGet_ok_of_mem (corpus : Corpus) (page : Page)
    (h : page ∈ corpus.map Prod.fst) :
    ∃ links, dictGet corpus page = Except.ok links := by
  induction corpus with
  | nil => simp at h
  | cons a t ih =>
      by_cases hk : a.1 = page
      · exact ⟨a.2, by simp [dictGet, hk]⟩
      · have h2 : page ∈ t.map Prod.fst := by
          rcases List.mem_map.mp h with ⟨x, hx, hx1⟩
          rcases List.mem_cons.mp hx with hx2 | hx2
          · exact absurd (hx2 ▸ hx1) hk
          · exact List.mem_map.mpr ⟨x, hx2, hx1⟩
        rcases ih h2 with ⟨links, hl⟩
        exact ⟨links, by simp [dictGet, hk, hl]⟩

lemma dictGet_err_of_not_mem (corpus : Corpus) (page : Page)
    (h : page ∉ corpus.map Prod.fst) :
    dictGet corpus page = Except.error PyError.keyError := by
  induction corpus with
  | nil => rfl
  | cons a t ih =>
      have hk : a.1 ≠ page := fun he =>
        h (List.mem_map.mpr ⟨a, List.mem_cons_self a t, he⟩)
      have h2 : page ∉ t.map Prod.fst := fun hm => by
        rcases List.mem_map.mp hm with ⟨x, hx, hx1⟩
        exact h (List.mem_map.mpr ⟨x, List.mem_cons_of_mem a hx, hx1⟩)
      simp [dictGet, hk, ih h2]

lemma sumMapAdd {α : Type} (l : List α) (f g : α → ℚ) :
    (l.map (fun x => f x + g x)).sum = (l.map f).sum + (l.map g).sum := by
  induction l with
  | nil => simp
  | cons a t ih => simp [ih]; ring

lemma sumMapConst {α : Type} (l : List α) (c : ℚ) :
    (l.map (fun _ => c)).sum = (l.length : ℚ) * c := by
  induction l with
  | nil => simp
  | cons a t ih =>
      simp [ih]
      ring

lemma sumMapSwap {α β : Type} (K : List α) (C : List β) (f : α → β → ℚ) :
    (K.map (fun k => (C.map (fun j => f k j)).sum)).sum
      = (C.map (fun j => (K.map (fun k => f k j)).sum)).sum := by
  induction K with
  | nil => simp [sumMapConst]
  | cons a t ih =>
      simp only [List.map_cons, List.sum_cons, ih, ← sumMapAdd]

lemma sumMapIte {α : Type} (l : List α) (p : α → Prop) [DecidablePred p] (f : α → ℚ) :
    (l.map (fun x => if p x then f x else 0)).sum
      = ((l.filter (fun x => decide (p x))).map f).sum := by
  induction l with
  | nil => simp
  | cons a t ih => by_cases h : p a <;> simp [List.filter_cons, h, ih]

lemma indicatorSum (K L : List Page) (c : ℚ) (hK : K.Nodup) (hL : L.Nodup)
    (hsub : ∀ p ∈ L, p ∈ K) :
    (K.map (fun k => if k ∈ L then c else 0)).sum = (L.length : ℚ) * c := by
  have h1 : ∀ K2 : List Page, (K2.map (fun k => if k ∈ L then c else 0)).sum
      = ((K2.countP (fun k => decide (k ∈ L)) : ℕ) : ℚ) * c := by
    intro K2
    induction K2 with
    | nil => simp
    | cons a t ih =>
        by_cases h : a ∈ L
        · simp [List.countP_cons, h, ih]
          ring
        · simp [List.countP_cons, h, ih]
  rw [h1, List.countP_eq_length_filter]
  have hnd : (K.filter (fun k => decide (k ∈ L))).Nodup := hK.filter _
  have hfin : (K.filter (fun k => decide (k ∈ L))).toFinset = L.toFinset := by
    ext x
    simp only [List.mem_toFinset, List.mem_filter, decide_eq_true_eq]
    exact ⟨fun h => h.2, fun h => ⟨hsub x h, h⟩⟩
  have hlen : (K.filter (fun k => decide (k ∈ L))).length = L.length := by
    rw [← List.toFinset_card_of_nodup hnd, ← List.toFinset_card_of_nodup hL, hfin]
  rw [hlen]

/-! Structural reduction lemmas for the embedded functions. -/

lemma keys_initRank (corpus : Corpus) :
    (initRank corpus).map Prod.fst = corpus.map Prod.fst := by
  unfold initRank
  rw [List.map_map]
  rfl

lemma iterate_pagerank_eq (corpus : Corpus) (d : ℚ) :
    iterate_pagerank corpus d
      = corpus.map (fun kv =>
          (kv.1, lookupQ (updatePass corpus d (initRank corpus)) kv.1)) := by
  unfold iterate_pagerank
  rw [List.map_map]
  rfl

lemma updatePass_lookup (corpus : Corpus) (d : ℚ) (r : List (Page × ℚ)) (k : Page)
    (hk : k ∈ r.map Prod.fst) :
    lookupQ (updatePass corpus d r) k
      = (1 - d) / (corpus.length : ℚ) + d * iterNumber corpus r k :=
  lookupQ_map_key r
    (fun i => (1 - d) / (corpus.length : ℚ) + d * iterNumber corpus r i) k hk

lemma iterate_pagerank_lookup (corpus : Corpus) (d : ℚ) (k : Page)
    (hk : k ∈ corpus.map Prod.fst) :
    lookupQ (iterate_pagerank corpus d) k
      = (1 - d) / (corpus.length : ℚ)
        + d * iterNumber corpus (initRank corpus) k := by
  rw [iterate_pagerank_eq]
  rw [lookupQ_map_key corpus
    (fun i => lookupQ (updatePass corpus d (initRank corpus)) i) k hk]
  exact updatePass_lookup corpus d (initRank corpus) k
    (by rw [keys_initRank]; exact hk)

lemma transition_model_eq (corpus : Corpus) (page : Page) (d : ℚ)
    (links : List Page) (hget : dictGet corpus page = Except.ok links) :
    transition_model corpus page d
      = if links ≠ [] then
          Except.ok (corpus.map (fun kv =>
            (kv.1, (1 - d) / (corpus.length : ℚ) +
              if kv.1 ∈ links then d / (links.length : ℚ) else 0)))
        else
          Except.ok (corpus.map (fun kv => (kv.1, 1 / (corpus.length : ℚ)))) := by
  unfold transition_model
  rw [hget]
  rfl

/-- The contribution of corpus entry j to "number" for page k during the
pass that starts from the uniform initial rank. -/
def initTerm (corpus : Corpus) (j : Page × List Page) (k : Page) : ℚ :=
  (if k ∈ j.2 then (1 / (corpus.length : ℚ)) / (j.2.length : ℚ) else 0) +
  (if j.2 = [] then (1 / (corpus.length : ℚ)) / (corpus.length : ℚ) else 0)

lemma iterNumber_init (corpus : Corpus) (k : Page) :
    iterNumber corpus (initRank corpus) k
      = (corpus.map (fun j => initTerm corpus j k)).sum := by
  unfold iterNumber initTerm
  refine congrArg List.sum (List.map_congr_left ?_)
  intro j hj
  have hmem : j.1 ∈ corpus.map Prod.fst := List.mem_map_of_mem Prod.fst hj
  have hval : lookupQ (initRank corpus) j.1 = 1 / (corpus.length : ℚ) :=
    lookupQ_map_key corpus (fun _ => 1 / (corpus.length : ℚ)) j.1 hmem
  rw [hval]

lemma transition_model_linked (corpus : Corpus) (page : Page) (d : ℚ)
    (links : List Page) (hget : dictGet corpus page = Except.ok links)
    (hl : links ≠ []) :
    transition_model corpus page d
      = Except.ok (corpus.map (fun kv =>
          (kv.1, (1 - d) / (corpus.length : ℚ) +
            if kv.1 ∈ links then d / (links.length : ℚ) else 0))) := by
  rw [transition_model_eq corpus page d links hget, if_pos hl]

lemma transition_model_dangling (corpus : Corpus) (page : Page) (d : ℚ)
    (links : List Page) (hget : dictGet corpus page = Except.ok links)
    (hl : links = []) :
    transition_model corpus page d
      = Except.ok (corpus.map (fun kv => (kv.1, 1 / (corpus.length : ℚ)))) := by
  rw [transition_model_eq corpus page d links hget, if_neg (by simp [hl])]

lemma iterNumber_eq_spec (corpus : Corpus) (d : ℚ) (r : List (Page × ℚ)) (k : Page) :
    (1 - d) / (corpus.length : ℚ) + d * iterNumber corpus r k
      = specNewRank corpus d (lookupQ r) k := by
  unfold iterNumber specNewRank
  rw [sumMapAdd corpus
    (fun kv => if k ∈ kv.2 then lookupQ r kv.1 / (kv.2.length : ℚ) else 0)
    (fun kv => if kv.2 = [] then lookupQ r kv.1 / (corpus.length : ℚ) else 0)]
  rw [sumMapIte corpus (fun kv => k ∈ kv.2)
    (fun kv => lookupQ r kv.1 / (kv.2.length : ℚ))]
  rw [sumMapIte corpus (fun kv => kv.2 = [])
    (fun kv => lookupQ r kv.1 / (corpus.length : ℚ))]
  ring

/-! Theorems settling the claims. -/

/-- Claim C3: for a page that is a key of the graph, transition_model gives
every corpus page (1-d)/N plus d/outdegree for linked pages when the page
has outgoing links, and the uniform 1/N when it has none. -/
theorem transition_model_formula (corpus : Corpus) (page : Page) (d : ℚ)
    (links : List Page) (hget : dictGet corpus page = Except.ok links)
    (p : Page) (hp : p ∈ corpus.map Prod.fst) :
    ∃ dist, transition_model corpus page d = Except.ok dist ∧
      lookupQ dist p =
        if links = [] then 1 / (corpus.length : ℚ)
        else (1 - d) / (corpus.length : ℚ)
          + (if p ∈ links then d / (links.length : ℚ) else 0) := by
  by_cases hl : links = []
  · refine ⟨_, transition_model_dangling corpus page d links hget hl, ?_⟩
    rw [if_pos hl]
    exact lookupQ_map_key corpus (fun _ => 1 / (corpus.length : ℚ)) p hp
  · refine ⟨_, transition_model_linked corpus page d links hget hl, ?_⟩
    rw [if_neg hl]
    exact lookupQ_map_key corpus
      (fun i => (1 - d) / (corpus.length : ℚ)
        + if i ∈ links then d / (links.length : ℚ) else 0) p hp

/-- Witness for C3 on a concrete two-page graph with a linked page. -/
theorem transition_model_formula_witness :
    dictGet [("A", ["B"]), ("B", [])] "A" = Except.ok ["B"] ∧
    "B" ∈ ([("A", ["B"]), ("B", [])] : Corpus).map Prod.fst ∧
    ∃ dist, transition_model [("A", ["B"]), ("B", [])] "A" (17/20)
        = Except.ok dist ∧
      lookupQ dist "B" =
        if (["B"] : List Page) = [] then 1 / ((2 : ℕ) : ℚ)
        else (1 - 17/20) / ((2 : ℕ) : ℚ)
          + (if "B" ∈ (["B"] : List Page) then (17/20) / ((1 : ℕ) : ℚ) else 0) :=
  ⟨rfl, by decide,
    transition_model_formula [("A", ["B"]), ("B", [])] "A" (17/20) ["B"]
      rfl "B" (by decide)⟩

/-- Claim C4: the single update pass that iterate_pagerank performs reads
only the rank snapshot from the start of the pass; at every key it equals
the simultaneous two-snapshot mathematical update of the spec. -/
theorem iterate_pass_is_simultaneous (corpus : Corpus) (d : ℚ) (k : Page)
    (hk : k ∈ corpus.map Prod.fst) :
    lookupQ (iterate_pagerank corpus d) k
      = specNewRank corpus d (lookupQ (initRank corpus)) k := by
  rw [iterate_pagerank_lookup corpus d k hk]
  exact iterNumber_eq_spec corpus d (initRank corpus) k

/-- Witness for C4 on a concrete graph with a dangling page. -/
theorem iterate_pass_is_simultaneous_witness :
    "B" ∈ ([("A", ["B"]), ("B", [])] : Corpus).map Prod.fst ∧
    lookupQ (iterate_pagerank [("A", ["B"]), ("B", [])] (17/20)) "B"
      = specNewRank [("A", ["B"]), ("B", [])] (17/20)
          (lookupQ (initRank [("A", ["B"]), ("B", [])])) "B" :=
  ⟨by decide, iterate_pass_is_simultaneous _ _ _ (by decide)⟩

/-- Claim C8: calling transition_model with a current page that is not a
key of the graph fails immediately (Python raises KeyError at
corpus[page]); nothing is silently recovered. -/
theorem transition_model_missing_page (corpus : Corpus) (page : Page) (d : ℚ)
    (h : page ∉ corpus.map Prod.fst) :
    transition_model corpus page d = Except.error PyError.keyError := by
  unfold transition_model
  rw [dictGet_err_of_not_mem corpus page h]
  rfl

/-- Witness for C8: page C is absent from the two-page graph. -/
theorem transition_model_missing_page_witness :
    "C" ∉ ([("A", ["B"]), ("B", [])] : Corpus).map Prod.fst ∧
    transition_model [("A", ["B"]), ("B", [])] "C" (17/20)
      = Except.error PyError.keyError :=
  ⟨by decide, transition_model_missing_page _ _ _ (by decide)⟩

/-- Claim C9: on the two-page graph A -> B, B -> A with damping 0.85,
iterate_pagerank returns exactly 1/2 for each page. -/
theorem iterate_two_page_cycle :
    lookupQ (iterate_pagerank [("A", ["B"]), ("B", ["A"])] (17/20)) "A" = 1/2 ∧
    lookupQ (iterate_pagerank [("A", ["B"]), ("B", ["A"])] (17/20)) "B" = 1/2 := by
  constructor <;> (simp [iterate_pagerank, updatePass, iterNumber, lookupQ]; norm_num)

/-- Claim C1 (refuting evidence): on the graph A -> B with B dangling and
damping 0.85, iterate_pagerank returns (0.2875, 0.7125) after its single
update pass, and one further update pass moves page A by 0.0903125, far
more than the 0.001 tolerance, so the returned mapping is not converged. -/
theorem iterate_single_pass_not_converged :
    iterate_pagerank [("A", ["B"]), ("B", [])] (17/20)
      = [("A", 23/80), ("B", 57/80)] ∧
    isclose
      (lookupQ (updatePass [("A", ["B"]), ("B", [])] (17/20)
        (iterate_pagerank [("A", ["B"]), ("B", [])] (17/20))) "A")
      (lookupQ (iterate_pagerank [("A", ["B"]), ("B", [])] (17/20)) "A")
      (1/1000) = false ∧
    1/1000 <
      |lookupQ (updatePass [("A", ["B"]), ("B", [])] (17/20)
          (iterate_pagerank [("A", ["B"]), ("B", [])] (17/20))) "A"
        - lookupQ (iterate_pagerank [("A", ["B"]), ("B", [])] (17/20)) "A"| := by
  refine ⟨?_, ?_, ?_⟩ <;>
    (simp [iterate_pagerank, updatePass, iterNumber, lookupQ, isclose]
     norm_num [abs_of_nonneg])

lemma sample_always_errors (corpus : Corpus) (d : ℚ) (n : ℤ) (hn : 1 ≤ n) :
    sample_pagerank corpus d n = Except.error PyError.typeError := by
  obtain ⟨m, hm⟩ : ∃ m, n.toNat = m + 1 := ⟨n.toNat - 1, by omega⟩
  unfold sample_pagerank
  rw [hm]
  rfl

/-- Claim C2 (refuting evidence): sample_pagerank crashes with TypeError on
its very first step, because random.choice is called with a keyword
argument it does not accept; here evaluated on the two-page cycle with
damping 0.85 and n = 10000. -/
theorem sample_pagerank_crashes :
    sample_pagerank [("A", ["B"]), ("B", ["A"])] (17/20) 10000
      = Except.error PyError.typeError :=
  sample_always_errors _ _ _ (by norm_num)

/-- Claim C7 (counterexample): on the empty graph neither function fails:
iterate_pagerank returns the empty mapping and sample_pagerank with the
out-of-range sample count 0 returns the Python integer 0. -/
theorem empty_graph_no_failure :
    iterate_pagerank [] (17/20) = []
      ∧ sample_pagerank [] (17/20) 0 = Except.ok (PyVal.int 0) :=
  ⟨rfl, rfl⟩

/-- Claim C7 (amended): the code performs no argument validation.
iterate_pagerank accepts any damping factor and returns the empty mapping
on the empty graph instead of failing, while sample_pagerank with any
graph, any damping factor and any sample count n >= 1 fails with a
TypeError raised by an invalid random.choice call, not with an
InvalidArgument validation error. -/
theorem no_argument_validation (corpus : Corpus) (d : ℚ) (n : ℤ) (hn : 1 ≤ n) :
    iterate_pagerank [] d = []
      ∧ sample_pagerank corpus d n = Except.error PyError.typeError :=
  ⟨rfl, sample_always_errors corpus d n hn⟩

/-- Witness for the amended C7 at concrete arguments. -/
theorem no_argument_validation_witness :
    (1 : ℤ) ≤ 1 ∧ (iterate_pagerank [] (17/20) = []
      ∧ sample_pagerank [("A", ["B"])] (17/20) 1
          = Except.error PyError.typeError) :=
  ⟨by decide, no_argument_validation [("A", ["B"])] (17/20) 1 (by decide)⟩

/-- Claim C10: for a page that is a key of a non-empty graph and damping
strictly between 0 and 1, transition_model succeeds, its distribution has
exactly the corpus key list as keys, and every probability is strictly
positive. -/
theorem transition_model_support (corpus : Corpus) (page : Page) (d : ℚ)
    (hne : corpus ≠ []) (hd0 : 0 < d) (hd1 : d < 1)
    (hp : page ∈ corpus.map Prod.fst) :
    ∃ dist, transition_model corpus page d = Except.ok dist
      ∧ dist.map Prod.fst = corpus.map Prod.fst
      ∧ ∀ kv ∈ dist, 0 < kv.2 := by
  obtain ⟨links, hget⟩ := dictGet_ok_of_mem corpus page hp
  have hlen : 0 < corpus.length := List.length_pos.mpr hne
  have hNpos : (0 : ℚ) < (corpus.length : ℚ) := by exact_mod_cast hlen
  by_cases hl : links = []
  · refine ⟨_, transition_model_dangling corpus page d links hget hl, ?_, ?_⟩
    · rw [List.map_map]
      exact List.map_congr_left (fun kv _ => rfl)
    · intro kv hkv
      rcases List.mem_map.mp hkv with ⟨x, _, hx1⟩
      rw [← hx1]
      exact one_div_pos.mpr hNpos
  · refine ⟨_, transition_model_linked corpus page d links hget hl, ?_, ?_⟩
    · rw [List.map_map]
      exact List.map_congr_left (fun kv _ => rfl)
    · intro kv hkv
      rcases List.mem_map.mp hkv with ⟨x, _, hx1⟩
      rw [← hx1]
      have h1 : (0 : ℚ) < (1 - d) / (corpus.length : ℚ) :=
        div_pos (by linarith) hNpos
      have h2 : (0 : ℚ) ≤ if x.1 ∈ links then d / (links.length : ℚ) else 0 := by
        by_cases hx : x.1 ∈ links
        · rw [if_pos hx]
          exact div_nonneg hd0.le (Nat.cast_nonneg _)
        · rw [if_neg hx]
      exact add_pos_of_pos_of_nonneg h1 h2

/-- Witness for C10 on a concrete graph. -/
theorem transition_model_support_witness :
    (([("A", ["B"]), ("B", [])] : Corpus) ≠ [] ∧ (0 : ℚ) < 17/20 ∧
      (17/20 : ℚ) < 1 ∧ "A" ∈ ([("A", ["B"]), ("B", [])] : Corpus).map Prod.fst) ∧
    ∃ dist, transition_model [("A", ["B"]), ("B", [])] "A" (17/20)
        = Except.ok dist
      ∧ dist.map Prod.fst = ([("A", ["B"]), ("B", [])] : Corpus).map Prod.fst
      ∧ ∀ kv ∈ dist, 0 < kv.2 :=
  ⟨⟨by decide, by norm_num, by norm_num, by decide⟩,
    transition_model_support [("A", ["B"]), ("B", [])] "A" (17/20)
      (by decide) (by norm_num) (by norm_num) (by decide)⟩

/-- Claim C5: for a page that is a key of a well-formed non-empty graph
(keys distinct, link sets duplicate-free and resolving inside the corpus),
the probabilities returned by transition_model sum to exactly 1, in both
the linked and the dangling case, hence within floating-point epsilon. -/
theorem transition_model_sum_one (corpus : Corpus) (page : Page) (d : ℚ)
    (links : List Page) (hne : corpus ≠ [])
    (hkeys : (corpus.map Prod.fst).Nodup)
    (hget : dictGet corpus page = Except.ok links)
    (hnd : links.Nodup) (hsub : ∀ p ∈ links, p ∈ corpus.map Prod.fst) :
    ∃ dist, transition_model corpus page d = Except.ok dist ∧
      (dist.map Prod.snd).sum = 1 := by
  have hlen : 0 < corpus.length := List.length_pos.mpr hne
  have hN : (corpus.length : ℚ) ≠ 0 := Nat.cast_ne_zero.mpr (by omega)
  by_cases hl : links = []
  · refine ⟨_, transition_model_dangling corpus page d links hget hl, ?_⟩
    rw [List.map_map]
    have h1 : corpus.map (Prod.snd ∘ fun kv => ((kv.1 : Page), 1 / (corpus.length : ℚ)))
        = corpus.map (fun _ => 1 / (corpus.length : ℚ)) :=
      List.map_congr_left (fun kv _ => rfl)
    rw [h1, sumMapConst, mul_one_div, div_self hN]
  · refine ⟨_, transition_model_linked corpus page d links hget hl, ?_⟩
    rw [List.map_map]
    have h1 : corpus.map (Prod.snd ∘ fun kv =>
          ((kv.1 : Page), (1 - d) / (corpus.length : ℚ) +
            if kv.1 ∈ links then d / (links.length : ℚ) else 0))
        = corpus.map (fun kv => (1 - d) / (corpus.length : ℚ) +
            if kv.1 ∈ links then d / (links.length : ℚ) else 0) :=
      List.map_congr_left (fun kv _ => rfl)
    rw [h1, sumMapAdd corpus (fun _ => (1 - d) / (corpus.length : ℚ))
      (fun kv => if kv.1 ∈ links then d / (links.length : ℚ) else 0), sumMapConst]
    have h2 : corpus.map (fun kv => if kv.1 ∈ links then d / (links.length : ℚ) else 0)
        = (corpus.map Prod.fst).map
            (fun k => if k ∈ links then d / (links.length : ℚ) else 0) := by
      rw [List.map_map]
      exact List.map_congr_left (fun kv _ => rfl)
    rw [h2, indicatorSum (corpus.map Prod.fst) links (d / (links.length : ℚ))
      hkeys hnd hsub]
    have hL : (links.length : ℚ) ≠ 0 := by
      refine Nat.cast_ne_zero.mpr ?_
      cases links with
      | nil => exact absurd rfl hl
      | cons a t => simp
    have e1 : (corpus.length : ℚ) * ((1 - d) / (corpus.length : ℚ)) = 1 - d := by
      field_simp
    have e2 : (links.length : ℚ) * (d / (links.length : ℚ)) = d := by
      field_simp
    rw [e1, e2]
    ring

/-- Witness for C5 at the dangling page B of a concrete graph. -/
theorem transition_model_sum_one_witness :
    (([("A", ["B"]), ("B", [])] : Corpus) ≠ [] ∧
      (([("A", ["B"]), ("B", [])] : Corpus).map Prod.fst).Nodup ∧
      dictGet [("A", ["B"]), ("B", [])] "B" = Except.ok [] ∧
      ([] : List Page).Nodup ∧
      ∀ p ∈ ([] : List Page), p ∈ ([("A", ["B"]), ("B", [])] : Corpus).map Prod.fst) ∧
    ∃ dist, transition_model [("A", ["B"]), ("B", [])] "B" (17/20) = Except.ok dist ∧
      (dist.map Prod.snd).sum = 1 :=
  ⟨⟨by decide, by decide, rfl, by decide, by decide⟩,
    transition_model_sum_one [("A", ["B"]), ("B", [])] "B" (17/20) []
      (by decide) (by decide) rfl (by decide) (by decide)⟩

lemma iterate_sum_eq_one (corpus : Corpus) (d : ℚ) (hne : corpus ≠ [])
    (hkeys : (corpus.map Prod.fst).Nodup)
    (hwf : ∀ kv ∈ corpus, kv.2.Nodup ∧ ∀ p ∈ kv.2, p ∈ corpus.map Prod.fst) :
    ((iterate_pagerank corpus d).map Prod.snd).sum = 1 := by
  have hlen : 0 < corpus.length := List.length_pos.mpr hne
  have hN : (corpus.length : ℚ) ≠ 0 := Nat.cast_ne_zero.mpr (by omega)
  have hvals : (iterate_pagerank corpus d).map Prod.snd
      = corpus.map (fun kv =>
          (1 - d) / (corpus.length : ℚ)
            + d * iterNumber corpus (initRank corpus) kv.1) := by
    rw [iterate_pagerank_eq, List.map_map]
    refine List.map_congr_left ?_
    intro kv hkv
    have hk : kv.1 ∈ corpus.map Prod.fst := List.mem_map_of_mem Prod.fst hkv
    show lookupQ (updatePass corpus d (initRank corpus)) kv.1 = _
    exact updatePass_lookup corpus d (initRank corpus) kv.1
      (by rw [keys_initRank]; exact hk)
  rw [hvals]
  rw [sumMapAdd corpus (fun _ => (1 - d) / (corpus.length : ℚ))
    (fun kv => d * iterNumber corpus (initRank corpus) kv.1)]
  rw [sumMapConst]
  rw [List.sum_map_mul_left]
  have hT : (corpus.map (fun kv => iterNumber corpus (initRank corpus) kv.1)).sum
      = 1 := by
    have h1 : corpus.map (fun kv => iterNumber corpus (initRank corpus) kv.1)
        = corpus.map (fun kv => (corpus.map (fun j => initTerm corpus j kv.1)).sum) :=
      List.map_congr_left (fun kv _ => iterNumber_init corpus kv.1)
    rw [h1]
    have h2 : corpus.map (fun kv => (corpus.map (fun j => initTerm corpus j kv.1)).sum)
        = (corpus.map Prod.fst).map
            (fun k => (corpus.map (fun j => initTerm corpus j k)).sum) := by
      rw [List.map_map]
      exact List.map_congr_left (fun kv _ => rfl)
    rw [h2]
    rw [sumMapSwap (corpus.map Prod.fst) corpus (fun k j => initTerm corpus j k)]
    have h3 : ∀ j ∈ corpus,
        ((corpus.map Prod.fst).map (fun k => initTerm corpus j k)).sum
          = 1 / (corpus.length : ℚ) := by
      intro j hj
      unfold initTerm
      rw [sumMapAdd (corpus.map Prod.fst)
        (fun k => if k ∈ j.2 then (1 / (corpus.length : ℚ)) / (j.2.length : ℚ) else 0)
        (fun _ => if j.2 = [] then (1 / (corpus.length : ℚ)) / (corpus.length : ℚ)
          else 0)]
      rw [indicatorSum (corpus.map Prod.fst) j.2
        ((1 / (corpus.length : ℚ)) / (j.2.length : ℚ)) hkeys (hwf j hj).1 (hwf j hj).2]
      rw [sumMapConst, List.length_map]
      by_cases hj2 : j.2 = []
      · rw [hj2]
        simp
        field_simp
      · rw [if_neg hj2]
        have hL : (j.2.length : ℚ) ≠ 0 := by
          refine Nat.cast_ne_zero.mpr ?_
          cases hc : j.2 with
          | nil => exact absurd hc hj2
          | cons a t => simp [hc]
        rw [mul_zero, add_zero]
        field_simp
        ring
    rw [List.map_congr_left h3]
    rw [sumMapConst, mul_one_div, div_self hN]
  rw [hT]
  have e1 : (corpus.length : ℚ) * ((1 - d) / (corpus.length : ℚ)) = 1 - d := by
    field_simp
  rw [e1]
  ring

/-- Claim C6: for every well-formed non-empty graph (dangling pages
included) and any damping factor, the values of the mapping returned by
iterate_pagerank sum to exactly 1, hence lie within 1e-6 of 1; no rank
mass is lost to dangling pages. -/
theorem iterate_pagerank_sum (corpus : Corpus) (d : ℚ) (hne : corpus ≠ [])
    (hkeys : (corpus.map Prod.fst).Nodup)
    (hwf : ∀ kv ∈ corpus, kv.2.Nodup ∧ ∀ p ∈ kv.2, p ∈ corpus.map Prod.fst) :
    |((iterate_pagerank corpus d).map Prod.snd).sum - 1| ≤ 1/1000000 := by
  rw [iterate_sum_eq_one corpus d hne hkeys hwf]
  norm_num

/-- Witness for C6 on a concrete graph with a dangling page. -/
theorem iterate_pagerank_sum_witness :
    (([("A", ["B"]), ("B", [])] : Corpus) ≠ [] ∧
      (([("A", ["B"]), ("B", [])] : Corpus).map Prod.fst).Nodup ∧
      ∀ kv ∈ ([("A", ["B"]), ("B", [])] : Corpus),
        kv.2.Nodup ∧ ∀ p ∈ kv.2, p ∈ ([("A", ["B"]), ("B", [])] : Corpus).map Prod.fst) ∧
    |((iterate_pagerank [("A", ["B"]), ("B", [])] (17/20)).map Prod.snd).sum - 1|
      ≤ 1/1000000 :=
  ⟨⟨by decide, by decide, by decide⟩,
    iterate_pagerank_sum [("A", ["B"]), ("B", [])] (17/20)
      (by decide) (by decide) (by decide)⟩
